import Mathlib

/-!
# Verification of the attribute propagation and merge engine

The repository (`src/src/main.rs`) consists of illustrative Leptos call
sites; the engine they exercise (AttributeBundle, BoundaryClassifier,
MergeResolver, InterceptorHandle, ArityEncoding) is described by the
specification but is not itself under `src/`.  The definitions below are
therefore modelled from the spec, faithful to its words, and the claims are
settled against them.
-/

namespace AttrEngine

/-- Modelled from the spec: the engine's attribute directive kinds
(`Kind ∈ {FullAttr, ClassToggle, ClassListToggle, StyleProp, EventHandler}`,
§3), which are missing from `src/` (only call sites exist there).
A `ValueSource` is represented by its current value: the merge step is pure
and synchronous (§5), so only the sampled value matters to the merge.
The `Spread(Bundle)` kind is realised by the `spread` operation on
`InterceptorHandle` below rather than as a recursive directive. -/
inductive Directive where
  | fullAttr (name value : String)
  | classToggle (name : String) (active : Bool)
  | classListToggle (names : List String) (active : Bool)
  | styleProp (prop value : String)
  | eventHandler (event : String) (handlerId : Nat)
deriving DecidableEq, Repr

/-- Modelled from the spec: an `AttributeBundle` is an ordered sequence of
directives, insertion order significant (§3). -/
abbrev Bundle := List Directive

/-- Modelled from the spec: the boundary tag on a rendering node,
`Transparent | Opaque` (§3).  `blocking` stands for the spec's Opaque
(type-erased, forwarding-blocking) boundary; `transparent` for the
concrete, forwarding-capable one. -/
inductive Boundary where
  | transparent
  | blocking
deriving DecidableEq, Repr

/-- Modelled from the spec: what remains of a bundle after crossing a list
of nested boundaries on the way to a RenderNode.  A bundle crossing an
Opaque boundary is discarded entirely before reaching any node beyond it;
Transparent boundaries forward it unchanged (§3 invariant, §4.2). -/
def forwardThrough : List Boundary → Bundle → Bundle
  | [], b => b
  | Boundary.transparent :: rest, b => forwardThrough rest b
  | Boundary.blocking :: _, _ => []

/-- Modelled from the spec: the errors surfaced at composition/build time
(§7): capacity exceeded (carrying the offending directive count),
ClassListToggle on a non-leaf target, double-consumption of an
InterceptorHandle. -/
inductive CompositionError where
  | capacityExceeded (count : Nat)
  | nonLeafTarget
  | doubleConsumption
deriving DecidableEq, Repr

deriving instance DecidableEq for Except

/-! ## MergeResolver (§4.3), modelled from the spec -/

/-- The last full-attribute value a bundle assigns to `name`
(later directives in declaration order override earlier ones). -/
def lastFullAttr (b : Bundle) (name : String) : Option String :=
  b.foldl
    (fun acc d =>
      match d with
      | Directive.fullAttr n v => if n = name then some v else acc
      | _ => acc)
    none

/-- Split a character list into its space-separated tokens; `cur` holds the
characters of the token currently being read, in reverse. -/
def splitTokensAux : List Char → List Char → List String
  | [], cur => if cur.isEmpty then [] else [String.mk cur.reverse]
  | c :: cs, cur =>
      if c = ' ' then
        if cur.isEmpty then splitTokensAux cs []
        else String.mk cur.reverse :: splitTokensAux cs []
      else splitTokensAux cs (c :: cur)

/-- Split a literal class string into its whitespace-separated tokens,
left-to-right as written. -/
def splitClasses (s : String) : List String :=
  splitTokensAux s.data []

/-- Join class tokens with single spaces. -/
def joinTokens : List String → String
  | [] => ""
  | [t] => t
  | t :: ts => t ++ " " ++ joinTokens ts

/-- Modelled from the spec: the node's local static class tokens, as
literally written, left-to-right (§4.3). -/
def localStaticClassTokens (b : Bundle) : List String :=
  ((b.filterMap fun d =>
      match d with
      | Directive.fullAttr n v => if n = "class" then some v else none
      | _ => none).map splitClasses).flatten

/-- The class tokens a single directive contributes while its condition
evaluates true: a ClassToggle contributes its one name, a ClassListToggle
expands into its names preserving array order (§4.3). -/
def Directive.toggleTokens : Directive → List String
  | Directive.classToggle n true => [n]
  | Directive.classListToggle ns true => ns
  | _ => []

/-- The active ClassToggle/ClassListToggle contributions of a bundle, in
declaration order. -/
def activeToggleTokens (b : Bundle) : List String :=
  (b.map Directive.toggleTokens).flatten

/-- Keep the first occurrence of each token, dropping duplicates from later
entries (idempotent set union, §4.3).  `seen` accumulates already-emitted
tokens. -/
def dedupAux : List String → List String → List String
  | [], _ => []
  | x :: xs, seen =>
      if x ∈ seen then dedupAux xs seen else x :: dedupAux xs (x :: seen)

/-- Each token is included at most once; duplicates from later entries are
dropped (§4.3). -/
def dedup (l : List String) : List String := dedupAux l []

/-- Modelled from the spec: the final class token list when no overriding
forwarded FullAttr applies — local static tokens first, then active
toggles in declaration order, local before forwarded, deduplicated (§4.3). -/
def mergedClassTokens (localB fwd : Bundle) : List String :=
  dedup (localStaticClassTokens localB ++
         activeToggleTokens localB ++ activeToggleTokens fwd)

/-- Modelled from the spec: the final class string of a node.  A forwarded
FullAttr for `class` overrides — local contributions are suppressed
entirely and the forwarded literal stands exactly; otherwise the merged
token list is joined with single spaces (§4.3). -/
def finalClassString (localB fwd : Bundle) : String :=
  match lastFullAttr fwd "class" with
  | some v => v
  | none => joinTokens (mergedClassTokens localB fwd)

/-- Modelled from the spec: the merged value of attribute `name` at a node.
A forwarded FullAttr overrides the local one; with no forwarded FullAttr
the local value (if any) stands; the `class` attribute takes the final
class string (§4.3). -/
def mergedAttrValue (localB fwd : Bundle) (name : String) : Option String :=
  if name = "class" then some (finalClassString localB fwd)
  else
    match lastFullAttr fwd name with
    | some v => some v
    | none => lastFullAttr localB name

/-- Set key `k` to `v` in an association list, replacing an existing entry
in place or appending a fresh one. -/
def setA {α : Type} : List (String × α) → String → α → List (String × α)
  | [], k, v => [(k, v)]
  | (k', v') :: rest, k, v =>
      if k' = k then (k, v) :: rest else (k', v') :: setA rest k v

/-- Apply a sequence of keyed entries to an association list, later entries
overriding earlier ones for the same key. -/
def applyKeyed {α : Type} (acc : List (String × α))
    (entries : List (String × α)) : List (String × α) :=
  entries.foldl (fun a e => setA a e.1 e.2) acc

/-- The (property, value) pairs of a bundle's StyleProp directives, in
declaration order. -/
def styleEntries (b : Bundle) : List (String × String) :=
  b.filterMap fun d =>
    match d with
    | Directive.styleProp p v => some (p, v)
    | _ => none

/-- The (event, handler) pairs of a bundle's EventHandler directives, in
declaration order. -/
def handlerEntries (b : Bundle) : List (String × Nat) :=
  b.filterMap fun d =>
    match d with
    | Directive.eventHandler e h => some (e, h)
    | _ => none

/-- The (name, value) pairs of a bundle's FullAttr directives other than
`class`, in declaration order. -/
def attrEntries (b : Bundle) : List (String × String) :=
  b.filterMap fun d =>
    match d with
    | Directive.fullAttr n v => if n = "class" then none else some (n, v)
    | _ => none

/-- Modelled from the spec: the finalized per-node snapshot exposed to
rendering — attributes, ordered class set, styles, handlers (§6). -/
structure Snapshot where
  attrs : List (String × String)
  classes : List String
  styles : List (String × String)
  handlers : List (String × Nat)
deriving DecidableEq, Repr

/-- Modelled from the spec: the MergeResolver.  Given a RenderNode's local
bundle and at most one forwarded bundle, produce the node's effective
attribute set (§4.3): forwarded keyed entries (FullAttr by name, StyleProp
by property, EventHandler by event) override local ones with the same key,
distinct keys coexist; the class set follows `mergedClassTokens` unless a
forwarded FullAttr for `class` overrides. -/
def mergeSnapshot (localB fwd : Bundle) : Snapshot :=
  { attrs := applyKeyed (applyKeyed [] (attrEntries localB)) (attrEntries fwd)
    classes :=
      match lastFullAttr fwd "class" with
      | some v => splitClasses v
      | none => mergedClassTokens localB fwd
    styles := applyKeyed (applyKeyed [] (styleEntries localB)) (styleEntries fwd)
    handlers :=
      applyKeyed (applyKeyed [] (handlerEntries localB)) (handlerEntries fwd) }

/-- Modelled from the spec: the merge result of a node's local bundle alone
(no forwarded bundle at all): local static class tokens then local active
toggles, deduplicated; local keyed entries with later declarations
overriding earlier ones for the same key (§4.3, §8). -/
def localSnapshot (localB : Bundle) : Snapshot :=
  { attrs := applyKeyed [] (attrEntries localB)
    classes := dedup (localStaticClassTokens localB ++ activeToggleTokens localB)
    styles := applyKeyed [] (styleEntries localB)
    handlers := applyKeyed [] (handlerEntries localB) }

/-! ## ArityEncoding (§4.5), modelled from the spec -/

/-- Modelled from the spec: the declared capacity constant `N` of the
fixed-arity encoding used at typed boundaries (reference value 26, §4.5);
in the source call sites this is the 26-directive limit exercised by
`RootManyClasses` and `RootManyAttributes`. -/
def CAPACITY : Nat := 26

/-- Modelled from the spec: composing a bundle through a single typed
(non-erased) boundary.  Composition-time verification rejects a bundle
whose length exceeds the capacity with a capacity-exceeded diagnostic
naming the offending directive count; otherwise the bundle is forwarded
(§4.5, §7). -/
def composeThroughTyped (b : Bundle) : Except CompositionError Bundle :=
  if b.length ≤ CAPACITY then Except.ok b
  else Except.error (CompositionError.capacityExceeded b.length)

/-- Modelled from the spec: composing an outer bundle through an outer
typed boundary and an inner bundle through a nested inner typed boundary.
The capacity check is enforced uniformly at every typed boundary, each
boundary checking the directives composed at its own call site (§4.5); the
directives that pass both checks are concatenated on the path to the leaf,
outer call-site directives before inner ones. -/
def composeNested (outer inner : Bundle) : Except CompositionError Bundle :=
  match composeThroughTyped outer with
  | Except.error e => Except.error e
  | Except.ok o =>
      match composeThroughTyped inner with
      | Except.error e => Except.error e
      | Except.ok i => Except.ok (o ++ i)

/-! ## Composition targets and ClassListToggle (§4.3), modelled from the spec -/

/-- Modelled from the spec: the target of a composition step — a concrete
leaf render node, or a component call site (§4.3). -/
inductive Target where
  | leaf
  | componentCall
deriving DecidableEq, Repr

/-- Modelled from the spec: composing one directive onto a target.
A ClassListToggle is only valid on a concrete leaf render node, where it
expands into one ClassToggle per name preserving array order; on a
component call site it is rejected at composition time with the
non-leaf-target error (§4.3, §7).  Every other directive composes onto
either target unchanged. -/
def composeDirective (t : Target) (d : Directive) :
    Except CompositionError (List Directive) :=
  match d with
  | Directive.classListToggle ns active =>
      match t with
      | Target.leaf =>
          Except.ok (ns.map fun n => Directive.classToggle n active)
      | Target.componentCall => Except.error CompositionError.nonLeafTarget
  | d => Except.ok [d]

/-! ## InterceptorHandle (§4.4), modelled from the spec -/

/-- Modelled from the spec: a single-use token wrapping a forwarded bundle
(§3, §4.4).  The target language's move semantics are modelled by an
explicit already-consumed flag, as the spec's design notes allow (§9). -/
structure InterceptorHandle where
  bundle : Bundle
  consumed : Bool
deriving DecidableEq, Repr

/-- Modelled from the spec: construction binds the bundle addressed to the
capturing component into a fresh, unconsumed handle (§4.4). -/
def capture (b : Bundle) : InterceptorHandle :=
  { bundle := b, consumed := false }

/-- Modelled from the spec: the single spread operation.  It applies
MergeResolver rules between the handle's bundle and the target node's
local bundle and consumes the handle; spreading an already-consumed handle
is the double-consumption composition error (§4.4, §7). -/
def spread (h : InterceptorHandle) (targetLocal : Bundle) :
    Except CompositionError (Snapshot × InterceptorHandle) :=
  if h.consumed then Except.error CompositionError.doubleConsumption
  else Except.ok (mergeSnapshot targetLocal h.bundle,
                  { bundle := h.bundle, consumed := true })

/-- Modelled from the spec: the end of the capturing component's
construction.  The body either consumes the handle with one spread onto
the target, or never calls spread, in which case the captured directives
are silently discarded — no error is raised and the target node keeps the
effective attributes of its local bundle alone (§4.4). -/
def finishComponent (h : InterceptorHandle) (targetLocal : Bundle)
    (doSpread : Bool) : Except CompositionError Snapshot :=
  if doSpread then
    match spread h targetLocal with
    | Except.error e => Except.error e
    | Except.ok (s, _) => Except.ok s
  else Except.ok (mergeSnapshot targetLocal [])

/-! ## Conditional (branch-select) constructs (§4.2), modelled from the spec -/

/-- Modelled from the spec: how a conditional construct represents its two
branches — forced into a shared erased representation (the source's `Show`
with an `AnyView` fallback), or kept in their original concrete typed
shapes (the source's `TypedFallbackShow`) (§4.2). -/
inductive CondRepr where
  | erasedBranches
  | typedBranches
deriving DecidableEq, Repr

/-- Modelled from the spec: the boundary classification of a conditional
node.  If both branches are forced into a shared erased representation the
conditional node itself is Opaque (here `blocking`); a specialized
construct that keeps both branches concretely typed is Transparent (§4.2). -/
def condBoundary : CondRepr → Boundary
  | CondRepr.erasedBranches => Boundary.blocking
  | CondRepr.typedBranches => Boundary.transparent

/-- Modelled from the spec: the part of a bundle addressed to a conditional
construct that is delivered to the branch rendered when the condition
evaluates to `active`.  The bundle crosses the conditional node's own
boundary: at an erased conditional the erasure point precedes branch
selection, so it is dropped regardless of which branch wins (§4.2). -/
def branchDelivered (r : CondRepr) (_active : Bool) (b : Bundle) : Bundle :=
  forwardThrough [condBoundary r] b

/-! ## Concrete call-site bundles from `src/src/main.rs`, used as instances -/

/-- The 26 dynamic classes `c1 … c26` composed through the outer boundary in
`RootManyClasses` (src/src/main.rs lines 185-226). -/
def manyClasses : Bundle :=
  [Directive.classToggle "c1" true, Directive.classToggle "c2" true,
   Directive.classToggle "c3" true, Directive.classToggle "c4" true,
   Directive.classToggle "c5" true, Directive.classToggle "c6" true,
   Directive.classToggle "c7" true, Directive.classToggle "c8" true,
   Directive.classToggle "c9" true, Directive.classToggle "c10" true,
   Directive.classToggle "c11" true, Directive.classToggle "c12" true,
   Directive.classToggle "c13" true, Directive.classToggle "c14" true,
   Directive.classToggle "c15" true, Directive.classToggle "c16" true,
   Directive.classToggle "c17" true, Directive.classToggle "c18" true,
   Directive.classToggle "c19" true, Directive.classToggle "c20" true,
   Directive.classToggle "c21" true, Directive.classToggle "c22" true,
   Directive.classToggle "c23" true, Directive.classToggle "c24" true,
   Directive.classToggle "c25" true, Directive.classToggle "c26" true]

/-- The single extra class `c27` composed through the nested inner boundary
in `RootManyClasses`. -/
def oneMoreClass : Bundle := [Directive.classToggle "c27" true]

/-! ## Helper lemmas -/

theorem mem_dedupAux (l : List String) :
    ∀ (seen : List String) (x : String),
      x ∈ dedupAux l seen ↔ x ∈ l ∧ x ∉ seen := by
  induction l with
  | nil => intro seen x; simp [dedupAux]
  | cons a l ih =>
      intro seen x
      by_cases h : a ∈ seen
      · simp only [dedupAux, if_pos h, ih, List.mem_cons]
        constructor
        · exact fun hp => ⟨Or.inr hp.1, hp.2⟩
        · rintro ⟨h1 | h1, h2⟩
          · exact absurd (h1 ▸ h) h2
          · exact ⟨h1, h2⟩
      · simp only [dedupAux, if_neg h, List.mem_cons, ih]
        constructor
        · rintro (rfl | ⟨h1, h2⟩)
          · exact ⟨Or.inl rfl, h⟩
          · exact ⟨Or.inr h1, fun hs => h2 (Or.inr hs)⟩
        · rintro ⟨h1 | h1, h2⟩
          · exact Or.inl h1
          · by_cases hxa : x = a
            · exact Or.inl hxa
            · exact Or.inr ⟨h1, fun hc => hc.elim hxa h2⟩

theorem dedupAux_nodup (l : List String) :
    ∀ seen : List String, (dedupAux l seen).Nodup := by
  induction l with
  | nil => intro seen; simp [dedupAux]
  | cons a l ih =>
      intro seen
      by_cases h : a ∈ seen
      · simpa [dedupAux, h] using ih seen
      · simp only [dedupAux, if_neg h, List.nodup_cons]
        refine ⟨fun hm => ?_, ih (a :: seen)⟩
        exact ((mem_dedupAux l (a :: seen) a).mp hm).2 (List.mem_cons_self a seen)

theorem mem_dedup (l : List String) (x : String) : x ∈ dedup l ↔ x ∈ l := by
  simp [dedup, mem_dedupAux]

theorem dedup_nodup (l : List String) : (dedup l).Nodup :=
  dedupAux_nodup l []

theorem forwardThrough_of_blocking (path : List Boundary) (b : Bundle)
    (h : Boundary.blocking ∈ path) : forwardThrough path b = [] := by
  induction path with
  | nil => cases h
  | cons x rest ih =>
      cases x with
      | transparent =>
          have hr : Boundary.blocking ∈ rest := by
            rcases List.mem_cons.mp h with h1 | h1
            · cases h1
            · exact h1
          simpa [forwardThrough] using ih hr
      | blocking => rfl

theorem forwardThrough_all_transparent (path : List Boundary) (b : Bundle)
    (h : Boundary.blocking ∉ path) : forwardThrough path b = b := by
  induction path with
  | nil => rfl
  | cons x rest ih =>
      cases x with
      | transparent =>
          simpa [forwardThrough] using
            ih (fun hm => h (List.mem_cons_of_mem _ hm))
      | blocking => exact absurd (List.mem_cons_self _ _) h

theorem mergeSnapshot_nil (localB : Bundle) :
    mergeSnapshot localB [] = localSnapshot localB := by
  simp [mergeSnapshot, localSnapshot, applyKeyed, attrEntries, styleEntries,
        handlerEntries, lastFullAttr, mergedClassTokens, activeToggleTokens]

theorem activeToggleTokens_expand (ns : List String) :
    activeToggleTokens (ns.map fun n => Directive.classToggle n true) = ns := by
  induction ns with
  | nil => rfl
  | cons n ns ih =>
      have hstep :
          activeToggleTokens ((n :: ns).map fun m => Directive.classToggle m true)
            = Directive.toggleTokens (Directive.classToggle n true)
              ++ activeToggleTokens (ns.map fun m => Directive.classToggle m true) := rfl
      rw [hstep, ih]
      rfl

/-! ## Claim theorems -/

/-- C1: for every bundle and every nesting depth (list of crossed
boundaries), a bundle that crosses an Opaque (`blocking`) boundary
contributes no directive to the effective attribute set of any RenderNode
beyond that boundary, while a bundle reaching a RenderNode through only
Transparent boundaries is merged in full. -/
theorem boundary_bundle_invariant (localB b : Bundle) (path : List Boundary) :
    (Boundary.blocking ∈ path →
      forwardThrough path b = [] ∧
      mergeSnapshot localB (forwardThrough path b) = mergeSnapshot localB []) ∧
    (Boundary.blocking ∉ path →
      mergeSnapshot localB (forwardThrough path b) = mergeSnapshot localB b) := by
  constructor
  · intro h
    rw [forwardThrough_of_blocking path b h]
    exact ⟨rfl, rfl⟩
  · intro h
    rw [forwardThrough_all_transparent path b h]

/-- Witness for C1, at the source's `RootDoesNotPass` and `RootPasses`
scenarios: `class="red-box"` dropped behind one Opaque boundary,
`class="foo"` merged in full through one Transparent boundary. -/
theorem boundary_bundle_invariant_witness :
    mergeSnapshot [Directive.styleProp "padding" "0.5rem"]
        (forwardThrough [Boundary.blocking] [Directive.fullAttr "class" "red-box"])
      = mergeSnapshot [Directive.styleProp "padding" "0.5rem"] [] ∧
    mergeSnapshot [Directive.styleProp "padding" "0.5rem"]
        (forwardThrough [Boundary.transparent] [Directive.fullAttr "class" "foo"])
      = mergeSnapshot [Directive.styleProp "padding" "0.5rem"]
          [Directive.fullAttr "class" "foo"] :=
  ⟨((boundary_bundle_invariant [Directive.styleProp "padding" "0.5rem"]
      [Directive.fullAttr "class" "red-box"] [Boundary.blocking]).1 (by decide)).2,
   (boundary_bundle_invariant [Directive.styleProp "padding" "0.5rem"]
      [Directive.fullAttr "class" "foo"] [Boundary.transparent]).2 (by decide)⟩

/-- C2: for every attribute name `X`, every local bundle and every
forwarded bundle carrying a FullAttr for `X`, the merged value of `X` is
exactly the forwarded literal — every local contribution to `X` is
suppressed and no concatenation of forwarded and local parts occurs. -/
theorem forwarded_fullattr_overrides (localB fwd : Bundle) (X v : String)
    (h : lastFullAttr fwd X = some v) :
    mergedAttrValue localB fwd X = some v ∧
    (X = "class" → finalClassString localB fwd = v) := by
  constructor
  · unfold mergedAttrValue
    by_cases hc : X = "class"
    · subst hc
      simp [finalClassString, h]
    · simp [hc, h]
  · intro hc
    subst hc
    simp [finalClassString, h]

/-- Witness for C2, at the source's `RootChildDynamicClass` scenario:
forwarded `attr:class="bar baz"` against local `class:foo=true` yields
exactly `"bar baz"`. -/
theorem forwarded_fullattr_overrides_witness :
    mergedAttrValue [Directive.classToggle "foo" true]
        [Directive.fullAttr "class" "bar baz"] "class" = some "bar baz" ∧
    ("class" = "class" →
      finalClassString [Directive.classToggle "foo" true]
        [Directive.fullAttr "class" "bar baz"] = "bar baz") :=
  forwarded_fullattr_overrides [Directive.classToggle "foo" true]
    [Directive.fullAttr "class" "bar baz"] "class" "bar baz" (by decide)

/-- C3: with no overriding forwarded FullAttr on `class`, the final class
string is the local static tokens (left-to-right) first, then active
toggle contributions in declaration order, local before forwarded, each
token at most once with later duplicates dropped; in particular local
static `"bar baz"` plus forwarded `ClassToggle foo=true` yields
`"bar baz foo"`. -/
theorem class_order_spec (localB fwd : Bundle)
    (h : lastFullAttr fwd "class" = none) :
    finalClassString localB fwd
      = joinTokens (dedup (localStaticClassTokens localB
          ++ activeToggleTokens localB ++ activeToggleTokens fwd)) ∧
    (mergedClassTokens localB fwd).Nodup ∧
    finalClassString [Directive.fullAttr "class" "bar baz"]
        [Directive.classToggle "foo" true] = "bar baz foo" := by
  refine ⟨?_, dedup_nodup _, by decide⟩
  simp [finalClassString, h, mergedClassTokens]

/-- Witness for C3, at the source's `RootParentDynamicClass` scenario. -/
theorem class_order_spec_witness :
    finalClassString [Directive.fullAttr "class" "bar baz"]
        [Directive.classToggle "foo" true]
      = joinTokens (dedup (localStaticClassTokens
            [Directive.fullAttr "class" "bar baz"]
          ++ activeToggleTokens [Directive.fullAttr "class" "bar baz"]
          ++ activeToggleTokens [Directive.classToggle "foo" true])) ∧
    (mergedClassTokens [Directive.fullAttr "class" "bar baz"]
        [Directive.classToggle "foo" true]).Nodup ∧
    finalClassString [Directive.fullAttr "class" "bar baz"]
        [Directive.classToggle "foo" true] = "bar baz foo" :=
  class_order_spec [Directive.fullAttr "class" "bar baz"]
    [Directive.classToggle "foo" true] (by decide)

/-- C4: for the declared capacity constant (26): composing a bundle of at
most `CAPACITY` directives through a single typed boundary succeeds, and
composing `CAPACITY + 1` directives fails at composition time with the
capacity-exceeded diagnostic naming the offending directive count. -/
theorem capacity_at_typed_boundary (b : Bundle) :
    (b.length ≤ CAPACITY → composeThroughTyped b = Except.ok b) ∧
    (b.length = CAPACITY + 1 →
      composeThroughTyped b
        = Except.error (CompositionError.capacityExceeded (CAPACITY + 1))) := by
  constructor
  · intro h
    simp [composeThroughTyped, h]
  · intro h
    have hgt : ¬ b.length ≤ CAPACITY := by omega
    simp [composeThroughTyped, hgt, h]

/-- Witness for C4, at the source's `RootManyClasses` scenario: the 26
classes `c1 … c26` compose, a 27th directive trips the capacity error
naming 27. -/
theorem capacity_at_typed_boundary_witness :
    composeThroughTyped manyClasses = Except.ok manyClasses ∧
    composeThroughTyped (Directive.classToggle "c27" true :: manyClasses)
      = Except.error (CompositionError.capacityExceeded 27) :=
  ⟨(capacity_at_typed_boundary manyClasses).1 (by decide),
   (capacity_at_typed_boundary
      (Directive.classToggle "c27" true :: manyClasses)).2 (by decide)⟩

/-- C5: a conditional construct whose branches share an erased
representation is classified Opaque, and a bundle addressed to it is
dropped for every branch — whichever branch is active at render time, the
rendered branch's node keeps exactly its local effective attributes. -/
theorem erased_conditional_drops (localB b : Bundle) :
    condBoundary CondRepr.erasedBranches = Boundary.blocking ∧
    ∀ active : Bool,
      branchDelivered CondRepr.erasedBranches active b = [] ∧
      mergeSnapshot localB (branchDelivered CondRepr.erasedBranches active b)
        = localSnapshot localB := by
  refine ⟨rfl, fun active => ⟨rfl, ?_⟩⟩
  exact mergeSnapshot_nil localB

/-- C6: composing a ClassListToggle onto a component call site is rejected
at composition time with the non-leaf-target error; on a concrete leaf it
is accepted and expands into one ClassToggle per listed name, preserving
array order (its active contribution is exactly the name list). -/
theorem classListToggle_target_rule (ns : List String) (active : Bool) :
    composeDirective Target.componentCall (Directive.classListToggle ns active)
      = Except.error CompositionError.nonLeafTarget ∧
    composeDirective Target.leaf (Directive.classListToggle ns active)
      = Except.ok (ns.map fun n => Directive.classToggle n active) ∧
    activeToggleTokens (ns.map fun n => Directive.classToggle n true) = ns :=
  ⟨rfl, rfl, activeToggleTokens_expand ns⟩

/-- C7: spreading an InterceptorHandle a second time is the
double-consumption composition error, and never calling spread silently
succeeds, leaving the target node exactly its local effective attributes. -/
theorem interceptor_spread_rule (b targetLocal targetLocal2 : Bundle) :
    (∀ (s : Snapshot) (h' : InterceptorHandle),
      spread (capture b) targetLocal = Except.ok (s, h') →
      spread h' targetLocal2 = Except.error CompositionError.doubleConsumption) ∧
    finishComponent (capture b) targetLocal false
      = Except.ok (localSnapshot targetLocal) := by
  constructor
  · intro s h' h
    have hs : spread (capture b) targetLocal
        = Except.ok (mergeSnapshot targetLocal b,
            ({ bundle := b, consumed := true } : InterceptorHandle)) := rfl
    rw [hs] at h
    injection h with h1
    have hh : h' = { bundle := b, consumed := true } :=
      (congrArg Prod.snd h1).symm
    rw [hh]
    simp [spread]
  · simp [finishComponent, mergeSnapshot_nil]

/-- Witness for C7, at the source's `DataTable` interceptor scenario. -/
theorem interceptor_spread_rule_witness :
    spread { bundle := [Directive.fullAttr "role" "grid"], consumed := true }
        [Directive.fullAttr "class" "data-table"]
      = Except.error CompositionError.doubleConsumption ∧
    finishComponent (capture [Directive.fullAttr "role" "grid"])
        [Directive.fullAttr "class" "data-table"] false
      = Except.ok (localSnapshot [Directive.fullAttr "class" "data-table"]) :=
  ⟨(interceptor_spread_rule [Directive.fullAttr "role" "grid"] []
      [Directive.fullAttr "class" "data-table"]).1
      (mergeSnapshot [] [Directive.fullAttr "role" "grid"])
      { bundle := [Directive.fullAttr "role" "grid"], consumed := true }
      (by decide),
   (interceptor_spread_rule [Directive.fullAttr "role" "grid"]
      [Directive.fullAttr "class" "data-table"] []).2⟩

/-- C8: merging any local bundle with an empty forwarded bundle produces
exactly the effective attribute set of the local bundle alone. -/
theorem merge_empty_forwarded (localB : Bundle) :
    mergeSnapshot localB [] = localSnapshot localB :=
  mergeSnapshot_nil localB

/-- C9: merge resolution is total and deterministic — the final class set
is a function of (local static classes, local active toggles, forwarded
FullAttr-class-or-absence, forwarded active toggles) only, so any two
inputs agreeing on those four projections yield the same final class set
and final class string. -/
theorem merge_deterministic (l1 f1 l2 f2 : Bundle)
    (hstat : localStaticClassTokens l1 = localStaticClassTokens l2)
    (hlt : activeToggleTokens l1 = activeToggleTokens l2)
    (hfa : lastFullAttr f1 "class" = lastFullAttr f2 "class")
    (hft : activeToggleTokens f1 = activeToggleTokens f2) :
    (mergeSnapshot l1 f1).classes = (mergeSnapshot l2 f2).classes ∧
    finalClassString l1 f1 = finalClassString l2 f2 := by
  have hcs : mergedClassTokens l1 f1 = mergedClassTokens l2 f2 := by
    simp [mergedClassTokens, hstat, hlt, hft]
  cases hv : lastFullAttr f2 "class" with
  | none =>
      rw [hv] at hfa
      exact ⟨by simp [mergeSnapshot, hfa, hv, hcs],
             by simp [finalClassString, hfa, hv, hcs]⟩
  | some v =>
      rw [hv] at hfa
      exact ⟨by simp [mergeSnapshot, hfa, hv],
             by simp [finalClassString, hfa, hv]⟩

/-- Witness for C9: two syntactically different (local, forwarded) pairs
agreeing on the four projections merge to the same class set and string. -/
theorem merge_deterministic_witness :
    (mergeSnapshot [Directive.fullAttr "class" "a", Directive.styleProp "p" "v"]
        [Directive.classToggle "t" true, Directive.eventHandler "click" 0]).classes
      = (mergeSnapshot [Directive.styleProp "q" "w", Directive.fullAttr "class" "a"]
          [Directive.classToggle "t" true]).classes ∧
    finalClassString [Directive.fullAttr "class" "a", Directive.styleProp "p" "v"]
        [Directive.classToggle "t" true, Directive.eventHandler "click" 0]
      = finalClassString [Directive.styleProp "q" "w", Directive.fullAttr "class" "a"]
          [Directive.classToggle "t" true] :=
  merge_deterministic
    [Directive.fullAttr "class" "a", Directive.styleProp "p" "v"]
    [Directive.classToggle "t" true, Directive.eventHandler "click" 0]
    [Directive.styleProp "q" "w", Directive.fullAttr "class" "a"]
    [Directive.classToggle "t" true]
    (by decide) (by decide) (by decide) (by decide)

/-- C10: the capacity bound is enforced per typed boundary, not
cumulatively across nesting — an outer bundle and an inner bundle each
within capacity compose even when their total exceeds it, and every active
toggle they carry reaches the leaf node's effective class set. -/
theorem capacity_per_boundary (localB outer inner : Bundle)
    (ho : outer.length ≤ CAPACITY) (hi : inner.length ≤ CAPACITY)
    (hno : lastFullAttr (outer ++ inner) "class" = none) :
    composeNested outer inner = Except.ok (outer ++ inner) ∧
    ∀ x, x ∈ activeToggleTokens (outer ++ inner) →
      x ∈ (mergeSnapshot localB (outer ++ inner)).classes := by
  constructor
  · simp [composeNested, composeThroughTyped, ho, hi]
  · intro x hx
    have hmem : x ∈ localStaticClassTokens localB
        ++ activeToggleTokens localB ++ activeToggleTokens (outer ++ inner) :=
      List.mem_append.mpr (Or.inr hx)
    simpa [mergeSnapshot, hno, mergedClassTokens, mem_dedup] using hmem

/-- Witness for C10, at the source's `RootManyClasses` scenario: 26 classes
through the outer boundary plus `c27` through the nested inner boundary
compose, and `c27` reaches the leaf's class set. -/
theorem capacity_per_boundary_witness :
    composeNested manyClasses oneMoreClass
      = Except.ok (manyClasses ++ oneMoreClass) ∧
    "c27" ∈ (mergeSnapshot [] (manyClasses ++ oneMoreClass)).classes :=
  ⟨(capacity_per_boundary [] manyClasses oneMoreClass
      (by decide) (by decide) (by decide)).1,
   (capacity_per_boundary [] manyClasses oneMoreClass
      (by decide) (by decide) (by decide)).2 "c27" (by decide)⟩

end AttrEngine
